import Mathlib

/-!
Verification of the weather MCP server (session-managed protocol gateway,
response cache, upstream fetch wrapper, tool handlers, auth gate).

The definitions below are shallow embeddings of the TypeScript source:

* namespace Mcp    — src/mcp/handler.ts (session store, getOrCreateSession,
  deleteSession, cleanupStaleSessions, handleMcpRequest).  The embedded
  revision is the current one: it keeps a lastAccessedAt timestamp that is
  refreshed on reuse, answers 404 for an unknown session id, and connects a
  server to its transport only when the session is new.
* namespace Cache  — tools/shared/cache/index.ts (InMemoryCache).
* namespace FetchM — tools/shared/fetch.ts (fetchWithTimeout, cachedFetchJson).
  cachedFetchJson is concurrent (in-flight deduplication across interleaved
  callers on the Node event loop), so it is embedded as a small-step machine:
  atomic steps correspond to the synchronous segments between await points.
* namespace Tools  — tools/wind/index.ts (registerWindTool handler).
* namespace Auth   — auth/middleware.ts and auth/constants.ts (jwtAuth,
  PUBLIC_PATHS).

JavaScript `Map` objects are modelled as association lists with the usual
set/delete/lookup operations (a Map never holds a duplicate key; theorems
that need this carry a Nodup hypothesis).  Timestamps are `Int` (JS number
arithmetic on Date.now() values, no truncation).
-/

namespace WeatherSpec

/-- Lookup in an association list, modelling JS Map.get. -/
def mapLookup {α : Type} : List (String × α) → String → Option α
  | [], _ => none
  | (k, v) :: rest, key => if k = key then some v else mapLookup rest key

/-- Insert or replace in an association list, modelling JS Map.set
(replaces in place; a new key is appended, preserving insertion order). -/
def mapSet {α : Type} : List (String × α) → String → α → List (String × α)
  | [], key, v => [(key, v)]
  | (k, w) :: rest, key, v =>
    if k = key then (key, v) :: rest else (k, w) :: mapSet rest key v

/-- Remove the entry for a key, modelling JS Map.delete (a Map holds at
most one entry per key, so removing the first occurrence is exact). -/
def mapDelete {α : Type} : List (String × α) → String → List (String × α)
  | [], _ => []
  | (k, w) :: rest, key =>
    if k = key then rest else (k, w) :: mapDelete rest key

/-- JS truthiness of an optional string header value: undefined and the
empty string are both falsy. -/
def truthy : Option String → Bool
  | none => false
  | some s => s != ""

/-- JsonRpcErrorCode.AUTH_ERROR (shared/constants.ts). -/
def AUTH_ERROR_CODE : Int := -32000

/-- JsonRpcErrorCode.INTERNAL_ERROR (shared/constants.ts). -/
def INTERNAL_ERROR_CODE : Int := -32603

namespace Mcp

/-- One MCP session (interface Session in mcp/handler.ts): the McpServer
and StreamableHTTPServerTransport instances are identified by allocation
ids, plus the lastAccessedAt timestamp. -/
structure Session where
  serverId : Nat
  transportId : Nat
  lastAccessedAt : Int
deriving DecidableEq, Repr

/-- The module state of mcp/handler.ts: the session map plus audit logs of
the side effects the claims are about.  `nextObjId` is an allocation
counter for engine/transport instance identities; `constructionLog`
records each createSession invocation (by session id), `toolRegLog` each
registerAllTools invocation (by server id), `connectLog` each
server.connect invocation (by server id), `closedTransports` each
transport.close invocation (by transport id). -/
structure HState where
  sessions : List (String × Session)
  nextObjId : Nat
  constructionLog : List String
  toolRegLog : List Nat
  connectLog : List Nat
  closedTransports : List Nat
deriving DecidableEq, Repr

/-- createSession (mcp/handler.ts): new McpServer, registerAllTools on it,
new transport bound to the session id, store the session in the map. -/
def createSession (st : HState) (sessionId : String) (now : Int) : Session × HState :=
  let server := st.nextObjId
  let transport := st.nextObjId + 1
  let session : Session :=
    { serverId := server, transportId := transport, lastAccessedAt := now }
  (session,
   { st with
     sessions := mapSet st.sessions sessionId session,
     nextObjId := st.nextObjId + 2,
     constructionLog := st.constructionLog ++ [sessionId],
     toolRegLog := st.toolRegLog ++ [server] })

/-- type SessionResult (mcp/handler.ts). -/
inductive SessionResult where
  | okRes (session : Session) (isNew : Bool)
  | errRes (status : Nat) (code : Int) (message : String)
deriving DecidableEq, Repr

/-- getOrCreateSession (mcp/handler.ts).  `freshId` stands for the
randomUUID() value drawn when a new session must be created.  The JS
condition `sessionId && sessions.has(sessionId)` treats an undefined or
empty header as absent (truthiness). -/
def getOrCreateSession (st : HState) (sessionId : Option String) (now : Int)
    (freshId : String) : SessionResult × HState :=
  if truthy sessionId then
    let sid := sessionId.getD ""
    match mapLookup st.sessions sid with
    | some s =>
      let s2 := { s with lastAccessedAt := now }
      (.okRes s2 false, { st with sessions := mapSet st.sessions sid s2 })
    | none =>
      (.errRes 404 INTERNAL_ERROR_CODE "Session not found or expired", st)
  else
    let created := createSession st freshId now
    (.okRes created.1 true, created.2)

/-- deleteSession (mcp/handler.ts): close the transport and drop the map
entry when the session exists. -/
def deleteSession (st : HState) (sessionId : String) : Bool × HState :=
  match mapLookup st.sessions sessionId with
  | some s =>
    (true,
     { st with
       sessions := mapDelete st.sessions sessionId,
       closedTransports := st.closedTransports ++ [s.transportId] })
  | none => (false, st)

/-- The sweep loop body of cleanupStaleSessions: close and drop every
session with now - lastAccessedAt > ttlMs, returning the surviving map
and the transports closed. -/
def sweepSessions : List (String × Session) → Int → Int →
    List (String × Session) × List Nat
  | [], _, _ => ([], [])
  | (sid, s) :: rest, now, ttlMs =>
    let tail := sweepSessions rest now ttlMs
    if now - s.lastAccessedAt > ttlMs then (tail.1, s.transportId :: tail.2)
    else ((sid, s) :: tail.1, tail.2)

/-- cleanupStaleSessions (mcp/handler.ts), with the current time and
config.session.ttlMs as explicit arguments. -/
def cleanupStaleSessions (st : HState) (now ttlMs : Int) : HState :=
  let swept := sweepSessions st.sessions now ttlMs
  { st with
    sessions := swept.1,
    closedTransports := st.closedTransports ++ swept.2 }

/-- The response handleMcpRequest writes: res.status(204).end(), a
jsonRpcError body, or delegation to session.transport.handleRequest. -/
inductive HttpOut where
  | emptyStatus (status : Nat)
  | jsonStatus (status : Nat) (code : Int) (message : String)
  | transportHandled (transportId : Nat)
deriving DecidableEq, Repr

/-- handleMcpRequest (mcp/handler.ts): DELETE closes the session
(404 when absent); otherwise resolve-or-create, connect server to
transport only for a brand-new session, then delegate to the transport. -/
def handleMcpRequest (st : HState) (method : String) (sessionId : Option String)
    (now : Int) (freshId : String) : HttpOut × HState :=
  if method = "DELETE" then
    if truthy sessionId then
      match deleteSession st (sessionId.getD "") with
      | (true, st2) => (.emptyStatus 204, st2)
      | (false, st2) =>
        (.jsonStatus 404 INTERNAL_ERROR_CODE "Session not found", st2)
    else (.jsonStatus 404 INTERNAL_ERROR_CODE "Session not found", st)
  else
    match getOrCreateSession st sessionId now freshId with
    | (.errRes status code msg, st2) => (.jsonStatus status code msg, st2)
    | (.okRes s isNew, st2) =>
      let st3 :=
        if isNew then { st2 with connectLog := st2.connectLog ++ [s.serverId] }
        else st2
      (.transportHandled s.transportId, st3)

/-- A run of POST requests all carrying the same session id (the freshId
argument is irrelevant on the reuse path and is passed as ""). -/
def runPostsWithId (st : HState) (sid : String) (times : List Int) : HState :=
  times.foldl (fun s t => (handleMcpRequest s "POST" (some sid) t "").2) st

end Mcp

namespace Cache

/-- Default TTL: 5 minutes (tools/shared/cache/index.ts). -/
def DEFAULT_TTL_MS : Int := 5 * 60 * 1000

/-- CacheEntry (tools/shared/cache/types.ts): a value plus its absolute
expiry timestamp. -/
structure CacheEntry (V : Type) where
  value : V
  expiresAt : Int
deriving DecidableEq, Repr

/-- InMemoryCache (tools/shared/cache/index.ts): the backing Map plus the
default TTL. -/
structure InMemoryCache (V : Type) where
  store : List (String × CacheEntry V)
  defaultTtlMs : Int
deriving DecidableEq, Repr

/-- InMemoryCache.get: lazy expiry on read — a present entry with
Date.now() > expiresAt is pruned and reads as undefined. Returns the read
value together with the possibly pruned cache. -/
def cacheGet {V : Type} (c : InMemoryCache V) (key : String) (now : Int) :
    Option V × InMemoryCache V :=
  match mapLookup c.store key with
  | none => (none, c)
  | some e =>
    if now > e.expiresAt then (none, { c with store := mapDelete c.store key })
    else (some e.value, c)

/-- InMemoryCache.set: store the value with expiresAt = Date.now() + ttl,
where ttl is options?.ttlMs ?? defaultTtlMs. -/
def cacheSet {V : Type} (c : InMemoryCache V) (key : String) (v : V)
    (ttlMs : Option Int) (now : Int) : InMemoryCache V :=
  let ttl := ttlMs.getD c.defaultTtlMs
  { c with store := mapSet c.store key { value := v, expiresAt := now + ttl } }

/-- InMemoryCache.has: defined as get(key) !== undefined. -/
def cacheHas {V : Type} (c : InMemoryCache V) (key : String) (now : Int) :
    Bool × InMemoryCache V :=
  let read := cacheGet c key now
  (read.1.isSome, read.2)

/-- The loop body of evictExpired: drop every entry with
now > expiresAt in one pass. -/
def sweepStore {V : Type} : List (String × CacheEntry V) → Int →
    List (String × CacheEntry V)
  | [], _ => []
  | (k, e) :: rest, now =>
    if now > e.expiresAt then sweepStore rest now
    else (k, e) :: sweepStore rest now

/-- InMemoryCache.evictExpired. -/
def evictExpired {V : Type} (c : InMemoryCache V) (now : Int) : InMemoryCache V :=
  { c with store := sweepStore c.store now }

/-- InMemoryCache.size: evictExpired first, then count the remaining
entries. Returns the count together with the pruned cache. -/
def cacheSize {V : Type} (c : InMemoryCache V) (now : Int) :
    Nat × InMemoryCache V :=
  let c2 := evictExpired c now
  (c2.store.length, c2)

end Cache

namespace FetchM

deriving instance DecidableEq for Except

/-- Default request timeout in milliseconds (tools/shared/fetch.ts). -/
def DEFAULT_TIMEOUT_MS : Nat := 10000

/-- A physical HTTP request as issued: the URL and the AbortSignal.timeout
attached to it (none when the fetch carries no signal at all). -/
structure FetchRequest where
  url : String
  timeoutMs : Option Nat
deriving DecidableEq, Repr

/-- fetchWithTimeout (tools/shared/fetch.ts): applies
AbortSignal.timeout(timeoutMs) with the 10-second default when the caller
passes no timeout (JS default parameter on an undefined argument). -/
def fetchWithTimeout (url : String) (timeoutMs : Option Nat) : FetchRequest :=
  { url := url, timeoutMs := some (timeoutMs.getD DEFAULT_TIMEOUT_MS) }

/-- The characters after the first "://" up to the first slash, question
mark or hash. -/
def hostChars : List Char → List Char
  | ':' :: '/' :: '/' :: rest =>
    rest.takeWhile (fun c => !(c == '/' || c == '?' || c == '#'))
  | _ :: rest => hostChars rest
  | [] => []

/-- The host part of a URL, modelling JS `new URL(url).host`: the text
after the scheme separator up to the first slash, query or fragment. -/
def urlHost (url : String) : String := String.mk (hostChars url.data)

/-- How a cachedFetchJson call can fail: the AbortSignal timeout rejection
(a TimeoutError DOMException) is a different value from the thrown
`new Error(host returned status)` for a non-ok response. -/
inductive FetchErr where
  | timeoutErr
  | httpStatus (host : String) (status : Nat)
deriving DecidableEq, Repr

/-- The message carried by the non-ok-status error thrown in
cachedFetchJson: a template naming the upstream host and the status code. -/
def renderFetchErr : FetchErr → String
  | .timeoutErr => "TimeoutError: signal timed out"
  | .httpStatus host status => host ++ " returned " ++ toString status

/-- What the network returns for one physical call: either the abort
signal fires (timeout / network failure) or an HTTP response arrives with
its ok flag, status code and (eventual) JSON body. -/
inductive NetOutcome (V : Type) where
  | timeout
  | http (ok : Bool) (status : Nat) (body : V)
deriving DecidableEq, Repr

/-- The JSON body of a successful response, none otherwise. -/
def okBody {V : Type} : NetOutcome V → Option V
  | .http true _ body => some body
  | _ => none

/-- The value a cachedFetchJson request promise settles with, given the
network outcome of its physical call. -/
def fetchResultOf {V : Type} (url : String) : NetOutcome V → Except FetchErr V
  | .timeout => .error .timeoutErr
  | .http ok status body =>
    if ok then .ok body else .error (.httpStatus (urlHost url) status)

/-- What the cache holds for the URL after a physical call has fully
settled: the parsed body of a successful response, nothing otherwise. -/
def cacheAfter {V : Type} : NetOutcome V → Option V := okBody

/-- The request coroutine of one physical call: the async IIFE inside
cachedFetchJson, cut at its await points.
fetching — awaiting fetchWithTimeout;
parsing — response arrived ok, awaiting response.json();
caching — json parsed and cache.set(url, data) executed, awaiting it;
resolvedWith — the request promise has settled. -/
inductive ReqPhase (V : Type) where
  | fetching
  | parsing (body : V)
  | caching (body : V)
  | resolvedWith (r : Except FetchErr V)
deriving DecidableEq, Repr

/-- One caller of cachedFetchJson(url), cut at its await points.
notStarted — not yet invoked;
started — ran cache.get(url) synchronously (the value it saw is recorded)
and suspended at its await;
ownerOf k — saw a cache miss and an empty in-flight ledger: issued physical
call k, put it in the ledger, now awaiting it inside try/finally;
joinerOf k — saw a cache miss but found call k in the ledger: awaiting it;
doneWith r — returned (or threw) r. -/
inductive CallerPhase (V : Type) where
  | notStarted
  | started (seenCache : Option V)
  | ownerOf (k : Nat)
  | joinerOf (k : Nat)
  | doneWith (r : Except FetchErr V)
deriving DecidableEq, Repr

/-- The shared module state of cachedFetchJson for one URL: the cache
entry for that URL, the in-flight ledger entry, every request coroutine
(index = physical call id, so reqs.length counts physical calls issued),
the callers, and an audit log of the fetchWithTimeout invocations. -/
structure GState (V : Type) where
  cacheVal : Option V
  inflight : Option Nat
  reqs : List (ReqPhase V)
  callers : List (CallerPhase V)
  issued : List FetchRequest
deriving DecidableEq, Repr

/-- Event-loop steps: each label is one synchronous segment (between
await points) of a caller, of a request coroutine, or a network event. -/
inductive Lab where
  | startCall (i : Nat)
  | resumeCall (i : Nat)
  | netReturn (k : Nat)
  | jsonDone (k : Nat)
  | setDone (k : Nat)
  | settleCall (i : Nat)
deriving DecidableEq, Repr

/-- Whether a label is the arrival of a network event (everything else is
a microtask of cachedFetchJson itself). -/
def Lab.isNet : Lab → Bool
  | .netReturn _ => true
  | _ => false

/-- One atomic event-loop step of cachedFetchJson, parametrised by the
URL, the caller-supplied timeout option and the network behaviour
(net k = outcome of physical call k).  A label whose precondition does
not hold is a no-op (that event is not pending).

startCall i — caller i invokes cachedFetchJson(url): cache.get(url) runs
synchronously and the caller suspends at its await (fetch.ts line 64).
resumeCall i — the await cache.get microtask: on a hit return the cached
value (line 66); otherwise consult the in-flight ledger and either await
the pending request (lines 70-73) or create the request IIFE — which
synchronously issues fetchWithTimeout(url, undefined, options?.timeoutMs)
— and put it in the ledger (lines 76-96).  The ledger check, the fetch
issue and the ledger insert are one synchronous segment: no await occurs
between them.
netReturn k — the fetch promise of call k settles: a timeout rejection
makes the request reject; a non-ok response throws the host/status error
(lines 78-81); an ok response proceeds to await response.json().
jsonDone k — response.json() settles with the body; cache.set(url, data)
runs synchronously (mutating the store) and the coroutine suspends at its
await (lines 83-91).
setDone k — the awaited cache.set settles; the request promise resolves
with the data (line 93).
settleCall i — the promise caller i awaits has settled: a joiner just
returns the shared result; the owner also runs its finally clause,
deleting the in-flight entry (lines 98-102). -/
def stepL {V : Type} (url : String) (timeoutMs : Option Nat)
    (net : Nat → NetOutcome V) (s : GState V) : Lab → GState V
  | .startCall i =>
    match s.callers.get? i with
    | some .notStarted =>
      { s with callers := s.callers.set i (.started s.cacheVal) }
    | _ => s
  | .resumeCall i =>
    match s.callers.get? i with
    | some (.started (some v)) =>
      { s with callers := s.callers.set i (.doneWith (.ok v)) }
    | some (.started none) =>
      match s.inflight with
      | some k => { s with callers := s.callers.set i (.joinerOf k) }
      | none =>
        let k := s.reqs.length
        { s with
          reqs := s.reqs ++ [.fetching],
          issued := s.issued ++ [fetchWithTimeout url timeoutMs],
          inflight := some k,
          callers := s.callers.set i (.ownerOf k) }
    | _ => s
  | .netReturn k =>
    match s.reqs.get? k with
    | some .fetching =>
      match net k with
      | .timeout =>
        { s with reqs := s.reqs.set k (.resolvedWith (.error .timeoutErr)) }
      | .http ok status body =>
        if ok then { s with reqs := s.reqs.set k (.parsing body) }
        else
          { s with
            reqs := s.reqs.set k
              (.resolvedWith (.error (.httpStatus (urlHost url) status))) }
    | _ => s
  | .jsonDone k =>
    match s.reqs.get? k with
    | some (.parsing body) =>
      { s with cacheVal := some body, reqs := s.reqs.set k (.caching body) }
    | _ => s
  | .setDone k =>
    match s.reqs.get? k with
    | some (.caching body) =>
      { s with reqs := s.reqs.set k (.resolvedWith (.ok body)) }
    | _ => s
  | .settleCall i =>
    match s.callers.get? i with
    | some (.ownerOf k) =>
      match s.reqs.get? k with
      | some (.resolvedWith r) =>
        { s with inflight := none, callers := s.callers.set i (.doneWith r) }
      | _ => s
    | some (.joinerOf k) =>
      match s.reqs.get? k with
      | some (.resolvedWith r) =>
        { s with callers := s.callers.set i (.doneWith r) }
      | _ => s
    | _ => s

/-- Run a schedule of event-loop steps. -/
def runL {V : Type} (url : String) (timeoutMs : Option Nat)
    (net : Nat → NetOutcome V) (s : GState V) (labs : List Lab) : GState V :=
  labs.foldl (stepL url timeoutMs net) s

/-- The state before anything ran, with n callers about to request the
same URL whose cache entry is absent (the cache-miss stampede scenario). -/
def startState (V : Type) (n : Nat) : GState V :=
  { cacheVal := none, inflight := none, reqs := [],
    callers := List.replicate n .notStarted, issued := [] }

/-- A caller has passed its in-flight-ledger check (it is awaiting a
promise or already done). -/
def CallerPhase.resumed {V : Type} : CallerPhase V → Bool
  | .notStarted => false
  | .started _ => false
  | _ => true

/-- All callers have passed the ledger check.  When N concurrent calls are
issued before the first response settles, the Node event loop drains all
their microtasks before the network I/O event is delivered, so every
caller reaches this point before any netReturn step. -/
def allResumed {V : Type} (s : GState V) : Bool :=
  s.callers.all CallerPhase.resumed

/-- The result a caller finished with, if it is done. -/
def CallerPhase.result? {V : Type} : CallerPhase V → Option (Except FetchErr V)
  | .doneWith r => some r
  | _ => none

/-- Invariant of the stampede window (before any network event): the
cache is still empty; either no physical call has been issued and every
caller is at most suspended after its cache read, or exactly one call
(id 0) is in flight, exactly registered in the ledger, owned by some
caller, and every caller is pending on it or not yet at the check. -/
def Inv1 {V : Type} (s : GState V) : Prop :=
  s.cacheVal = none ∧
  ((s.reqs = [] ∧ s.inflight = none ∧
      ∀ c ∈ s.callers, c = .notStarted ∨ c = .started none) ∨
    (s.reqs = [.fetching] ∧ s.inflight = some 0 ∧
      (∃ j, s.callers.get? j = some (.ownerOf 0)) ∧
      ∀ c ∈ s.callers,
        c = .notStarted ∨ c = .started none ∨ c = .ownerOf 0 ∨
          c = .joinerOf 0))

/-- Consistency of the single request coroutine with its network outcome
and the cache: the cache is written exactly at the json step of a
successful response, and the resolved value is fetchResultOf. -/
def ReqOK {V : Type} (url : String) (o : NetOutcome V) (cacheVal : Option V) :
    ReqPhase V → Prop
  | .fetching => cacheVal = none
  | .parsing v => okBody o = some v ∧ cacheVal = none
  | .caching v => okBody o = some v ∧ cacheVal = some v
  | .resolvedWith r => r = fetchResultOf url o ∧ cacheVal = cacheAfter o

/-- Invariant after the stampede window: exactly one physical call was
issued (id 0), the ledger holds it exactly while its owner has not yet
run its finally clause, and every caller is its owner, a joiner, or done
with the shared result fetchResultOf url (net 0). -/
def Inv2 {V : Type} (url : String) (net : Nat → NetOutcome V)
    (s : GState V) : Prop :=
  (∃ p, s.reqs = [p] ∧ ReqOK url (net 0) s.cacheVal p) ∧
  (s.inflight = none ∨
    (s.inflight = some 0 ∧ ∃ j, s.callers.get? j = some (.ownerOf 0))) ∧
  (∀ c ∈ s.callers,
    c = .ownerOf 0 ∨ c = .joinerOf 0 ∨
      c = .doneWith (fetchResultOf url (net 0)))

/-- Per-call consistency, valid in every reachable state regardless of
schedule: a request coroutine never leaves the track prescribed by its
own network outcome. -/
def ReqC {V : Type} (url : String) (o : NetOutcome V) : ReqPhase V → Prop
  | .fetching => True
  | .parsing v => okBody o = some v
  | .caching v => okBody o = some v
  | .resolvedWith r => r = fetchResultOf url o

/-- Schedule-independent invariant: every request coroutine is consistent
with its network outcome, and the cache only ever holds the body of a
successful (ok) response of some issued call. -/
def GOK {V : Type} (url : String) (net : Nat → NetOutcome V)
    (s : GState V) : Prop :=
  (∀ k p, s.reqs.get? k = some p → ReqC url (net k) p) ∧
  (∀ v, s.cacheVal = some v → ∃ k, k < s.reqs.length ∧ okBody (net k) = some v)

end FetchM

namespace Tools

/-- The result shape a tool handler returns to the MCP layer: a single
text content block, and whether the result carries the isError flag
(the flag is absent in the source unless set to true; absent is modelled
as false). -/
structure ToolResult where
  text : String
  isError : Bool
deriving DecidableEq, Repr

/-- The text returned when geocoding finds no match
(tools/wind/index.ts lines 33-42). -/
def noMatchText (city : String) : String :=
  "Could not find a location matching \"" ++ city ++
    "\". Try a more specific city name."

/-- The text returned by the catch-all handler
(tools/wind/index.ts lines 50-61). -/
def windErrorText (city message : String) : String :=
  "Error fetching wind data for \"" ++ city ++ "\": " ++ message

/-- The get_wind handler body (tools/wind/index.ts lines 29-62), with its
awaited effects passed in as outcomes.  `Loc` is the GeoResult type
(opaque here).  `geocode` is the outcome of await geocodeCity(city): a
thrown error message, null, or a location.  `wind loc` is the outcome of
await fetchWindData followed by formatWindReport: a thrown error message
or the report text.  The entire body sits in one try/catch whose catch
returns a flagged-error result, so every case maps to a ToolResult and no
exception escapes the handler. -/
def windToolHandler (Loc : Type) (city : String)
    (geocode : Except String (Option Loc))
    (wind : Loc → Except String String) : ToolResult :=
  match geocode with
  | .error e => { text := windErrorText city e, isError := true }
  | .ok none => { text := noMatchText city, isError := false }
  | .ok (some loc) =>
    match wind loc with
    | .error e => { text := windErrorText city e, isError := true }
    | .ok report => { text := report, isError := false }

end Tools

namespace Auth

/-- PUBLIC_PATHS (auth/constants.ts): paths that skip JWT validation. -/
def PUBLIC_PATHS : List String :=
  ["/health",
   "/.well-known/openid-configuration",
   "/.well-known/oauth-authorization-server",
   "/.well-known/oauth-protected-resource",
   "/authorize",
   "/token",
   "/register",
   "/logout"]

/-- The claims and signature state jose recovers from a compact JWT. -/
structure TokenClaims where
  validSignature : Bool
  expired : Bool
  alg : String
  iss : String
  aud : List String
  azp : Option String
  sub : Option String
  scope : Option String
  exp : Option Nat
deriving DecidableEq, Repr

/-- Modelled from the spec: the external jose jwtVerify called in
auth/middleware.ts with issuer, audience and algorithms options —
"Verifies the credential's signature against a remotely-fetched, cached
key set ... Verifies issuer and audience claims against configured
expected values, and algorithm restricted to a single approved signing
algorithm"; "On any verification failure (expired, bad signature,
issuer/audience mismatch): authentication-error failure". -/
def joseVerify (tok : TokenClaims) (issuer audience : String)
    (algorithms : List String) : Except Unit TokenClaims :=
  if tok.validSignature && !tok.expired && algorithms.contains tok.alg &&
      (tok.iss == issuer) && tok.aud.contains audience then
    .ok tok
  else
    .error ()

/-- Whether the first list starts with the second (character model of the
JS String.prototype.startsWith loop). -/
def startsWithChars : List Char → List Char → Bool
  | _, [] => true
  | [], _ :: _ => false
  | a :: as, b :: bs => a == b && startsWithChars as bs

/-- JS authHeader.startsWith(p). -/
def jsStartsWith (s p : String) : Bool := startsWithChars s.data p.data

/-- JS authHeader.slice(n) for an ASCII head: drop the first n characters. -/
def jsDrop (s : String) (n : Nat) : String := String.mk (s.data.drop n)

/-- The bearer-token extraction in jwtAuth: a missing header, or one not
starting with "Bearer ", is rejected; otherwise the token is
authHeader.slice(7). -/
def extractBearer : Option String → Option String
  | none => none
  | some h => if jsStartsWith h "Bearer " then some (jsDrop h 7) else none

/-- AuthInfo (MCP SDK shape) built from JWT claims in auth/middleware.ts. -/
structure AuthInfo where
  token : String
  clientId : String
  scopes : List String
  expiresAt : Option Nat
deriving DecidableEq, Repr

/-- The decision the jwtAuth middleware takes for one request. -/
inductive AuthOutcome where
  | nextNoAuth
  | nextWith (auth : AuthInfo)
  | rejected (status : Nat) (code : Int) (message : String)
deriving DecidableEq, Repr

/-- jwtAuth (auth/middleware.ts): skip public paths; reject a missing or
non-Bearer Authorization header; verify the token via jose against the
configured issuer, audience and the RS256 algorithm; on success attach
AuthInfo (azp ?? sub ?? "unknown", space-split scope, exp); on any
verification failure reject with the authentication-error code.
`decode` maps a compact token string to what jose recovers from it. -/
def jwtAuth (issuer audience : String) (decode : String → TokenClaims)
    (path : String) (authHeader : Option String) : AuthOutcome :=
  if PUBLIC_PATHS.contains path then .nextNoAuth
  else
    match extractBearer authHeader with
    | none =>
      .rejected 401 AUTH_ERROR_CODE "Missing or invalid Authorization header"
    | some token =>
      match joseVerify (decode token) issuer audience ["RS256"] with
      | .ok payload =>
        .nextWith
          { token := token,
            clientId := (payload.azp.getD (payload.sub.getD "unknown")),
            scopes :=
              match payload.scope with
              | some s => s.splitOn " "
              | none => [],
            expiresAt := payload.exp }
      | .error _ =>
        .rejected 401 AUTH_ERROR_CODE "Invalid or expired token"

end Auth

/-! ### Helper lemmas about the Map model -/

theorem mapLookup_mapSet_self {α : Type} (m : List (String × α)) (k : String)
    (v : α) : mapLookup (mapSet m k v) k = some v := by
  induction m with
  | nil => simp [mapSet, mapLookup]
  | cons hd tl ih =>
    obtain ⟨k1, v1⟩ := hd
    by_cases h : k1 = k <;> simp [mapSet, mapLookup, h, ih]

theorem mem_mapSet_self {α : Type} (m : List (String × α)) (k : String)
    (v : α) : (k, v) ∈ mapSet m k v := by
  induction m with
  | nil => simp [mapSet]
  | cons hd tl ih =>
    obtain ⟨k1, v1⟩ := hd
    by_cases h : k1 = k <;> simp [mapSet, h, ih]

theorem mapLookup_eq_none_of_not_mem {α : Type} (m : List (String × α))
    (k : String) (h : k ∉ m.map Prod.fst) : mapLookup m k = none := by
  induction m with
  | nil => simp [mapLookup]
  | cons hd tl ih =>
    obtain ⟨k1, v1⟩ := hd
    simp only [List.map_cons, List.mem_cons] at h
    push_neg at h
    simp [mapLookup, Ne.symm h.1, ih h.2]

theorem mapLookup_mapDelete_self {α : Type} (m : List (String × α))
    (k : String) (hnd : (m.map Prod.fst).Nodup) :
    mapLookup (mapDelete m k) k = none := by
  induction m with
  | nil => simp [mapDelete, mapLookup]
  | cons hd tl ih =>
    obtain ⟨k1, v1⟩ := hd
    simp only [List.map_cons, List.nodup_cons] at hnd
    by_cases h : k1 = k
    · subst h
      simp only [mapDelete, if_pos rfl]
      exact mapLookup_eq_none_of_not_mem tl k1 hnd.1
    · simp [mapDelete, mapLookup, h, ih hnd.2]

/-! ### C1 — unknown session id: not-found failure, no mutation -/

/-- C1: a request carrying a (non-empty) session identifier that is not in
the session map makes getOrCreateSession return the 404-equivalent
"Session not found or expired" failure and leave the entire handler state
unchanged — in particular the session map is not mutated and no session is
constructed under the old identifier or a fresh one. -/
theorem C1_unknown_session_not_found (st : Mcp.HState) (sid : String)
    (now : Int) (freshId : String) (hsid : sid ≠ "")
    (hmiss : mapLookup st.sessions sid = none) :
    Mcp.getOrCreateSession st (some sid) now freshId =
      (.errRes 404 INTERNAL_ERROR_CODE "Session not found or expired", st) := by
  have ht : truthy (some sid) = true := by simp [truthy, hsid]
  simp [Mcp.getOrCreateSession, ht, hmiss]

theorem C1_unknown_session_not_found_witness :
    ("s1" ≠ "" ∧
      mapLookup (Mcp.HState.mk [] 0 [] [] [] []).sessions "s1" = none) ∧
    Mcp.getOrCreateSession (Mcp.HState.mk [] 0 [] [] [] []) (some "s1") 5 "f1" =
      (.errRes 404 INTERNAL_ERROR_CODE "Session not found or expired",
        Mcp.HState.mk [] 0 [] [] [] []) :=
  ⟨⟨by decide, rfl⟩,
    C1_unknown_session_not_found (Mcp.HState.mk [] 0 [] [] [] []) "s1" 5 "f1"
      (by decide) rfl⟩

/-! ### C2 — construction happens at most once per session identifier -/

theorem runPosts_reuse_invariant (sid : String) (hsid : sid ≠ "") :
    ∀ (times : List Int) (st : Mcp.HState) (s : Mcp.Session),
      mapLookup st.sessions sid = some s →
      (Mcp.runPostsWithId st sid times).constructionLog = st.constructionLog ∧
      (Mcp.runPostsWithId st sid times).toolRegLog = st.toolRegLog ∧
      (Mcp.runPostsWithId st sid times).connectLog = st.connectLog ∧
      ∃ s2, mapLookup (Mcp.runPostsWithId st sid times).sessions sid = some s2 := by
  have ht : truthy (some sid) = true := by simp [truthy, hsid]
  intro times
  induction times with
  | nil => intro st s hlive; exact ⟨rfl, rfl, rfl, s, hlive⟩
  | cons t ts ih =>
    intro st s hlive
    have hstep :
        (Mcp.handleMcpRequest st "POST" (some sid) t "").2 =
          { st with sessions := mapSet st.sessions sid
                      (Mcp.Session.mk s.serverId s.transportId t) } := by
      simp [Mcp.handleMcpRequest, Mcp.getOrCreateSession, ht, hlive]
    have hlive2 :
        mapLookup (Mcp.handleMcpRequest st "POST" (some sid) t "").2.sessions
          sid = some (Mcp.Session.mk s.serverId s.transportId t) := by
      rw [hstep]; exact mapLookup_mapSet_self _ _ _
    have hrun : Mcp.runPostsWithId st sid (t :: ts) =
        Mcp.runPostsWithId (Mcp.handleMcpRequest st "POST" (some sid) t "").2
          sid ts := rfl
    obtain ⟨h1, h2, h3, s3, h4⟩ :=
      ih (Mcp.handleMcpRequest st "POST" (some sid) t "").2
        (Mcp.Session.mk s.serverId s.transportId t) hlive2
    refine ⟨?_, ?_, ?_, s3, by rw [hrun]; exact h4⟩
    · rw [hrun, h1, hstep]
    · rw [hrun, h2, hstep]
    · rw [hrun, h3, hstep]

/-- C2: construction (engine creation + tool registration + transport
binding) happens at most once per session identifier.  A sessionless POST
constructs exactly one new session (one createSession entry, one
registerAllTools entry) and connects its engine to its transport exactly
once; any number N of subsequent requests carrying the id of a live
session leave the construction, tool-registration and connect logs
untouched, so the construction count for that identifier stays at 1. -/
theorem C2_construction_at_most_once (st : Mcp.HState) (sid : String)
    (s : Mcp.Session) (times : List Int) (now : Int) (freshId : String)
    (hsid : sid ≠ "") (hlive : mapLookup st.sessions sid = some s)
    (hfresh : st.constructionLog.count freshId = 0) :
    ((Mcp.handleMcpRequest st "POST" none now freshId).2.constructionLog =
        st.constructionLog ++ [freshId] ∧
      (Mcp.handleMcpRequest st "POST" none now freshId).2.constructionLog.count
          freshId = 1 ∧
      (Mcp.handleMcpRequest st "POST" none now freshId).2.toolRegLog =
        st.toolRegLog ++ [st.nextObjId] ∧
      (Mcp.handleMcpRequest st "POST" none now freshId).2.connectLog =
        st.connectLog ++ [st.nextObjId]) ∧
    ((Mcp.runPostsWithId st sid times).constructionLog = st.constructionLog ∧
      (Mcp.runPostsWithId st sid times).toolRegLog = st.toolRegLog ∧
      (Mcp.runPostsWithId st sid times).connectLog = st.connectLog) := by
  constructor
  · have hnew :
        (Mcp.handleMcpRequest st "POST" none now freshId).2 =
          { st with
            sessions := mapSet st.sessions freshId
                          (Mcp.Session.mk st.nextObjId (st.nextObjId + 1) now),
            nextObjId := st.nextObjId + 2,
            constructionLog := st.constructionLog ++ [freshId],
            toolRegLog := st.toolRegLog ++ [st.nextObjId],
            connectLog := st.connectLog ++ [st.nextObjId] } := by
      simp [Mcp.handleMcpRequest, Mcp.getOrCreateSession, truthy,
        Mcp.createSession]
    rw [hnew]
    refine ⟨rfl, ?_, rfl, rfl⟩
    simp [List.count_append, hfresh]
  · obtain ⟨h1, h2, h3, _⟩ := runPosts_reuse_invariant sid hsid times st s hlive
    exact ⟨h1, h2, h3⟩

theorem C2_construction_at_most_once_witness :
    (("a" : String) ≠ "" ∧
      mapLookup [(("a" : String), Mcp.Session.mk 0 1 0)] "a" =
        some (Mcp.Session.mk 0 1 0) ∧
      (Mcp.HState.mk [("a", Mcp.Session.mk 0 1 0)] 2 ["a"] [0] [0]
          []).constructionLog.count "b" = 0) ∧
    ((Mcp.handleMcpRequest
          (Mcp.HState.mk [("a", Mcp.Session.mk 0 1 0)] 2 ["a"] [0] [0] [])
          "POST" none 7 "b").2.constructionLog = ["a"] ++ ["b"] ∧
      (Mcp.handleMcpRequest
          (Mcp.HState.mk [("a", Mcp.Session.mk 0 1 0)] 2 ["a"] [0] [0] [])
          "POST" none 7 "b").2.constructionLog.count "b" = 1 ∧
      (Mcp.handleMcpRequest
          (Mcp.HState.mk [("a", Mcp.Session.mk 0 1 0)] 2 ["a"] [0] [0] [])
          "POST" none 7 "b").2.toolRegLog = [0] ++ [2] ∧
      (Mcp.handleMcpRequest
          (Mcp.HState.mk [("a", Mcp.Session.mk 0 1 0)] 2 ["a"] [0] [0] [])
          "POST" none 7 "b").2.connectLog = [0] ++ [2]) ∧
    ((Mcp.runPostsWithId
          (Mcp.HState.mk [("a", Mcp.Session.mk 0 1 0)] 2 ["a"] [0] [0] [])
          "a" [1, 2, 3]).constructionLog = ["a"] ∧
      (Mcp.runPostsWithId
          (Mcp.HState.mk [("a", Mcp.Session.mk 0 1 0)] 2 ["a"] [0] [0] [])
          "a" [1, 2, 3]).toolRegLog = [0] ∧
      (Mcp.runPostsWithId
          (Mcp.HState.mk [("a", Mcp.Session.mk 0 1 0)] 2 ["a"] [0] [0] [])
          "a" [1, 2, 3]).connectLog = [0]) :=
  ⟨⟨by decide, by decide, by decide⟩,
    C2_construction_at_most_once
      (Mcp.HState.mk [("a", Mcp.Session.mk 0 1 0)] 2 ["a"] [0] [0] []) "a"
      (Mcp.Session.mk 0 1 0) [1, 2, 3] 7 "b" (by decide) (by decide)
      (by decide)⟩

/-! ### C3 — the idle sweep removes exactly the sessions idle beyond TTL -/

theorem mem_sweepSessions_iff (l : List (String × Mcp.Session))
    (now ttlMs : Int) (sid : String) (s : Mcp.Session) :
    (sid, s) ∈ (Mcp.sweepSessions l now ttlMs).1 ↔
      (sid, s) ∈ l ∧ now - s.lastAccessedAt ≤ ttlMs := by
  induction l with
  | nil => simp [Mcp.sweepSessions]
  | cons hd tl ih =>
    obtain ⟨k1, s1⟩ := hd
    by_cases h : now - s1.lastAccessedAt > ttlMs
    · simp only [Mcp.sweepSessions, if_pos h]
      rw [ih]
      constructor
      · exact fun hx => ⟨List.mem_cons_of_mem _ hx.1, hx.2⟩
      · rintro ⟨hmem, hle⟩
        rcases List.mem_cons.1 hmem with heq | hmem2
        · exfalso
          have : s = s1 := congrArg Prod.snd heq
          rw [this] at hle
          omega
        · exact ⟨hmem2, hle⟩
    · simp only [Mcp.sweepSessions, if_neg h, List.mem_cons]
      rw [ih]
      constructor
      · rintro (heq | hx)
        · refine ⟨Or.inl heq, ?_⟩
          have : s = s1 := congrArg Prod.snd heq
          rw [this]; omega
        · exact ⟨Or.inr hx.1, hx.2⟩
      · rintro ⟨heq | hmem2, hle⟩
        · exact Or.inl heq
        · exact Or.inr ⟨hmem2, hle⟩

/-- C3: cleanupStaleSessions removes a session exactly when its idle
duration now - lastAccessedAt strictly exceeds the configured TTL — a
session stays in the map iff now - lastAccessedAt ≤ ttlMs.  Since every
request that resolves to a session refreshes lastAccessedAt to the
request time (getOrCreateSession), a session accessed at the sweep time
survives the sweep no matter when it was created: its Session record
carries no creation time at all, only lastAccessedAt. -/
theorem C3_sweep_removes_iff_idle_exceeds_ttl (st : Mcp.HState)
    (now ttlMs : Int) (sid : String) (s0 : Mcp.Session) (freshId : String)
    (hsid : sid ≠ "") (hlive : mapLookup st.sessions sid = some s0)
    (httl : 0 ≤ ttlMs) :
    (∀ (k : String) (s : Mcp.Session),
        (k, s) ∈ (Mcp.cleanupStaleSessions st now ttlMs).sessions ↔
          (k, s) ∈ st.sessions ∧ now - s.lastAccessedAt ≤ ttlMs) ∧
    (sid, Mcp.Session.mk s0.serverId s0.transportId now) ∈
      (Mcp.cleanupStaleSessions
        ((Mcp.getOrCreateSession st (some sid) now freshId).2) now
        ttlMs).sessions := by
  have ht : truthy (some sid) = true := by simp [truthy, hsid]
  constructor
  · intro k s
    exact mem_sweepSessions_iff st.sessions now ttlMs k s
  · have hst2 :
        (Mcp.getOrCreateSession st (some sid) now freshId).2 =
          { st with sessions := mapSet st.sessions sid
                      (Mcp.Session.mk s0.serverId s0.transportId now) } := by
      simp [Mcp.getOrCreateSession, ht, hlive]
    rw [hst2]
    refine (mem_sweepSessions_iff _ now ttlMs sid _).2 ⟨?_, by simp; omega⟩
    exact mem_mapSet_self _ _ _

theorem C3_sweep_removes_iff_idle_exceeds_ttl_witness :
    (("a" : String) ≠ "" ∧
      mapLookup [(("a" : String), Mcp.Session.mk 0 1 10)] "a" =
        some (Mcp.Session.mk 0 1 10) ∧
      (0 : Int) ≤ 1000) ∧
    ((∀ (k : String) (s : Mcp.Session),
        (k, s) ∈ (Mcp.cleanupStaleSessions
            (Mcp.HState.mk [("a", Mcp.Session.mk 0 1 10)] 2 ["a"] [0] [0] [])
            5000 1000).sessions ↔
          (k, s) ∈ [(("a" : String), Mcp.Session.mk 0 1 10)] ∧
            5000 - s.lastAccessedAt ≤ 1000) ∧
      ("a", Mcp.Session.mk 0 1 5000) ∈
        (Mcp.cleanupStaleSessions
          ((Mcp.getOrCreateSession
            (Mcp.HState.mk [("a", Mcp.Session.mk 0 1 10)] 2 ["a"] [0] [0] [])
            (some "a") 5000 "f").2) 5000 1000).sessions) :=
  ⟨⟨by decide, rfl, by decide⟩,
    C3_sweep_removes_iff_idle_exceeds_ttl
      (Mcp.HState.mk [("a", Mcp.Session.mk 0 1 10)] 2 ["a"] [0] [0] []) 5000
      1000 "a" (Mcp.Session.mk 0 1 10) "f" (by decide) rfl (by decide)⟩

/-! ### C6 — session termination is idempotent and never throws -/

/-- C6: terminating a live session answers the 204-equivalent success,
closes its transport and removes it from the map; a second DELETE with
the same identifier answers the 404-equivalent "Session not found"
failure and leaves the state untouched.  Both calls are ordinary total
evaluations of handleMcpRequest — no case raises an exception. -/
theorem C6_terminate_idempotent (st : Mcp.HState) (sid : String)
    (s : Mcp.Session) (now now2 : Int) (freshId freshId2 : String)
    (hsid : sid ≠ "") (hlive : mapLookup st.sessions sid = some s)
    (hnd : (st.sessions.map Prod.fst).Nodup) :
    ∃ st1 : Mcp.HState,
      Mcp.handleMcpRequest st "DELETE" (some sid) now freshId =
        (.emptyStatus 204, st1) ∧
      mapLookup st1.sessions sid = none ∧
      s.transportId ∈ st1.closedTransports ∧
      Mcp.handleMcpRequest st1 "DELETE" (some sid) now2 freshId2 =
        (.jsonStatus 404 INTERNAL_ERROR_CODE "Session not found", st1) := by
  have ht : truthy (some sid) = true := by simp [truthy, hsid]
  refine ⟨{ st with
            sessions := mapDelete st.sessions sid,
            closedTransports := st.closedTransports ++ [s.transportId] },
          ?_, ?_, ?_, ?_⟩
  · simp [Mcp.handleMcpRequest, Mcp.deleteSession, ht, hlive]
  · exact mapLookup_mapDelete_self st.sessions sid hnd
  · simp
  · have hgone : mapLookup (mapDelete st.sessions sid) sid = none :=
      mapLookup_mapDelete_self st.sessions sid hnd
    simp [Mcp.handleMcpRequest, Mcp.deleteSession, ht, hgone]

theorem C6_terminate_idempotent_witness :
    (("a" : String) ≠ "" ∧
      mapLookup [(("a" : String), Mcp.Session.mk 0 1 10)] "a" =
        some (Mcp.Session.mk 0 1 10) ∧
      (([(("a" : String), Mcp.Session.mk 0 1 10)]).map Prod.fst).Nodup) ∧
    (∃ st1 : Mcp.HState,
      Mcp.handleMcpRequest
          (Mcp.HState.mk [("a", Mcp.Session.mk 0 1 10)] 2 ["a"] [0] [0] [])
          "DELETE" (some "a") 20 "f" = (.emptyStatus 204, st1) ∧
      mapLookup st1.sessions "a" = none ∧
      (Mcp.Session.mk 0 1 10).transportId ∈ st1.closedTransports ∧
      Mcp.handleMcpRequest st1 "DELETE" (some "a") 30 "g" =
        (.jsonStatus 404 INTERNAL_ERROR_CODE "Session not found", st1)) :=
  ⟨⟨by decide, rfl, by decide⟩,
    C6_terminate_idempotent
      (Mcp.HState.mk [("a", Mcp.Session.mk 0 1 10)] 2 ["a"] [0] [0] []) "a"
      (Mcp.Session.mk 0 1 10) 20 30 "f" "g" (by decide) rfl (by decide)⟩

/-! ### C5 — cache visibility at the expiry boundary -/

/-- C5 counterexample: the claim says an entry is visible iff the current
time is strictly less than expiresAt.  The code checks
`Date.now() > entry.expiresAt`, so at now = expiresAt the entry is still
returned by get although now < expiresAt fails. -/
theorem C5_visibility_counterexample :
    (Cache.cacheGet
        (Cache.InMemoryCache.mk [("k", Cache.CacheEntry.mk 42 100)]
          Cache.DEFAULT_TTL_MS)
        "k" 100).1 = some 42 ∧
    ¬ ((100 : Int) < 100) := by
  constructor
  · rfl
  · omega

theorem cacheGet_store_sweepStore (V : Type) (l : List (String × Cache.CacheEntry V))
    (now : Int) :
    Cache.sweepStore l now =
      l.filter (fun kv => decide (now ≤ kv.2.expiresAt)) := by
  induction l with
  | nil => rfl
  | cons hd tl ih =>
    obtain ⟨k, e⟩ := hd
    by_cases h : now > e.expiresAt
    · have : ¬ (now ≤ e.expiresAt) := by omega
      simp [Cache.sweepStore, if_pos h, List.filter, this, ih]
    · have : now ≤ e.expiresAt := by omega
      simp [Cache.sweepStore, if_neg h, List.filter, this, ih]

/-- C5 amended: an entry is visible to readers (returned by get, reported
by has, counted by size) iff the current time is less than OR EQUAL TO
its expiresAt timestamp — the boundary instant now = expiresAt still
reads as present; an entry with now > expiresAt reads as absent even when
it has not yet been physically removed from the store. -/
theorem C5_visibility_iff_not_expired (V : Type) (c : Cache.InMemoryCache V)
    (key : String) (now : Int) :
    (∀ v : V, (Cache.cacheGet c key now).1 = some v ↔
        (∃ e : Cache.CacheEntry V, mapLookup c.store key = some e ∧
          e.value = v ∧ now ≤ e.expiresAt)) ∧
    ((Cache.cacheHas c key now).1 = true ↔
        (∃ e : Cache.CacheEntry V, mapLookup c.store key = some e ∧
          now ≤ e.expiresAt)) ∧
    (Cache.cacheSize c now).1 =
      (c.store.filter (fun kv => decide (now ≤ kv.2.expiresAt))).length := by
  refine ⟨?_, ?_, ?_⟩
  · intro v
    unfold Cache.cacheGet
    cases hl : mapLookup c.store key with
    | none => simp
    | some e =>
      by_cases h : now > e.expiresAt
      · have : ¬ (now ≤ e.expiresAt) := by omega
        simp [if_pos h, this]
      · have hle : now ≤ e.expiresAt := by omega
        simp only [if_neg h]
        constructor
        · rintro h2
          exact ⟨e, rfl, by simpa using h2, hle⟩
        · rintro ⟨e2, he2, hv, _⟩
          simp only [Option.some.injEq] at he2
          subst he2
          simpa using hv
  · unfold Cache.cacheHas Cache.cacheGet
    cases hl : mapLookup c.store key with
    | none => simp
    | some e =>
      by_cases h : now > e.expiresAt
      · have : ¬ (now ≤ e.expiresAt) := by omega
        simp [if_pos h, this]
      · have hle : now ≤ e.expiresAt := by omega
        simp [if_neg h, hle]
  · unfold Cache.cacheSize Cache.evictExpired
    simp [cacheGet_store_sweepStore]

/-! ### C8 — tool handler failure shape -/

/-- C8 counterexample: the claim says every failure — including
no-location-match — yields a result flagged as an error.  The no-match
branch of registerWindTool (tools/wind/index.ts lines 33-42) returns the
"Could not find a location matching ..." content without isError, so the
result is not flagged: for the concrete input city "Atlantis" with
geocodeCity resolving to null, the handler result has isError = false. -/
theorem C8_no_match_not_flagged_counterexample :
    Tools.windToolHandler Unit "Atlantis" (.ok none)
        (fun _ => .ok "report") =
      Tools.ToolResult.mk (Tools.noMatchText "Atlantis") false ∧
    (Tools.windToolHandler Unit "Atlantis" (.ok none)
        (fun _ => .ok "report")).isError = false := by
  exact ⟨rfl, rfl⟩

/-- C8 amended: the handler never lets an exception escape — every
outcome of its awaited effects maps to a normally-shaped ToolResult (the
embedding is a total function).  A thrown failure (upstream error from
geocoding or from the wind fetch, malformed derived data) is caught and
returned as a result flagged isError with a human-readable message naming
the city and the failure; the no-location-match case returns a readable
"Could not find a location ..." result that is NOT flagged as an error;
a successful fetch returns the report unflagged. -/
theorem C8_handler_failures_shaped (Loc : Type) (city : String)
    (e : String) (wind : Loc → Except String String) :
    Tools.windToolHandler Loc city (.error e) wind =
      Tools.ToolResult.mk (Tools.windErrorText city e) true ∧
    (∀ loc : Loc, wind loc = .error e →
      Tools.windToolHandler Loc city (.ok (some loc)) wind =
        Tools.ToolResult.mk (Tools.windErrorText city e) true) ∧
    Tools.windToolHandler Loc city (.ok none) wind =
      Tools.ToolResult.mk (Tools.noMatchText city) false ∧
    (∀ (loc : Loc) (report : String), wind loc = .ok report →
      Tools.windToolHandler Loc city (.ok (some loc)) wind =
        Tools.ToolResult.mk report false) := by
  refine ⟨rfl, ?_, rfl, ?_⟩
  · intro loc hw
    simp [Tools.windToolHandler, hw]
  · intro loc report hw
    simp [Tools.windToolHandler, hw]

theorem C8_handler_failures_shaped_witness :
    ((fun _ : Unit => (Except.error "api.open-meteo.com returned 503" :
        Except String String)) () = .error "api.open-meteo.com returned 503") ∧
    Tools.windToolHandler Unit "Chicago"
        (.ok (some ()))
        (fun _ => .error "api.open-meteo.com returned 503") =
      Tools.ToolResult.mk
        (Tools.windErrorText "Chicago" "api.open-meteo.com returned 503")
        true :=
  ⟨rfl,
    (C8_handler_failures_shaped Unit "Chicago"
        "api.open-meteo.com returned 503"
        (fun _ => .error "api.open-meteo.com returned 503")).2.1 () rfl⟩

/-! ### C10 — authentication gate -/

/-- C10: the authentication gate.  (1) A request to an allowlisted public
path with no credential header passes (next() is called without auth).
(2) A request to a non-allowlisted path with no credential header is
rejected with the reserved authentication-error code -32000.  (3) A
request bearing a well-formed Bearer token whose signature verifies but
whose audience list does not contain the configured audience is rejected
with the same authentication-error code. -/
theorem C10_auth_gate (issuer audience : String)
    (decode : String → Auth.TokenClaims) (publicPath otherPath : String)
    (header : Option String) (tokenStr : String)
    (hpub : Auth.PUBLIC_PATHS.contains publicPath = true)
    (hpriv : Auth.PUBLIC_PATHS.contains otherPath = false)
    (htok : Auth.extractBearer header = some tokenStr)
    (hsig : (decode tokenStr).validSignature = true)
    (haud : (decode tokenStr).aud.contains audience = false) :
    Auth.jwtAuth issuer audience decode publicPath none = .nextNoAuth ∧
    Auth.jwtAuth issuer audience decode otherPath none =
      .rejected 401 AUTH_ERROR_CODE "Missing or invalid Authorization header" ∧
    Auth.jwtAuth issuer audience decode otherPath header =
      .rejected 401 AUTH_ERROR_CODE "Invalid or expired token" := by
  refine ⟨?_, ?_, ?_⟩
  · unfold Auth.jwtAuth
    rw [hpub]
    simp
  · unfold Auth.jwtAuth
    rw [hpriv]
    simp [Auth.extractBearer]
  · have hver : Auth.joseVerify (decode tokenStr) issuer audience ["RS256"] =
        .error () := by
      unfold Auth.joseVerify
      rw [haud]
      simp
    unfold Auth.jwtAuth
    rw [hpriv, htok]
    simp [hver]

theorem C10_auth_gate_witness :
    (Auth.PUBLIC_PATHS.contains "/health" = true ∧
      Auth.PUBLIC_PATHS.contains "/mcp" = false ∧
      Auth.extractBearer (some "Bearer tok1") = some "tok1" ∧
      ((fun _ : String =>
          Auth.TokenClaims.mk true false "RS256" "https://issuer.example/"
            ["https://other-api.example"] none none none none) "tok1"
        ).validSignature = true ∧
      ((fun _ : String =>
          Auth.TokenClaims.mk true false "RS256" "https://issuer.example/"
            ["https://other-api.example"] none none none none) "tok1"
        ).aud.contains "https://api.example" = false) ∧
    (Auth.jwtAuth "https://issuer.example/" "https://api.example"
        (fun _ => Auth.TokenClaims.mk true false "RS256"
          "https://issuer.example/" ["https://other-api.example"] none none
          none none) "/health" none = .nextNoAuth ∧
      Auth.jwtAuth "https://issuer.example/" "https://api.example"
        (fun _ => Auth.TokenClaims.mk true false "RS256"
          "https://issuer.example/" ["https://other-api.example"] none none
          none none) "/mcp" none =
        .rejected 401 AUTH_ERROR_CODE
          "Missing or invalid Authorization header" ∧
      Auth.jwtAuth "https://issuer.example/" "https://api.example"
        (fun _ => Auth.TokenClaims.mk true false "RS256"
          "https://issuer.example/" ["https://other-api.example"] none none
          none none) "/mcp" (some "Bearer tok1") =
        .rejected 401 AUTH_ERROR_CODE "Invalid or expired token") :=
  ⟨⟨by decide, by decide, by decide, by decide, by decide⟩,
    C10_auth_gate "https://issuer.example/" "https://api.example"
      (fun _ => Auth.TokenClaims.mk true false "RS256"
        "https://issuer.example/" ["https://other-api.example"] none none
        none none) "/health" "/mcp" (some "Bearer tok1") "tok1" (by decide)
      (by decide) (by decide) (by decide) (by decide)⟩

/-! ### Machine lemmas for cachedFetchJson (C4, C7, C9) -/

theorem get?_singleton {α : Type} (a : α) (k : Nat) :
    [a].get? k = if k = 0 then some a else none := by
  cases k <;> simp

theorem lt_of_get?_eq_some {α : Type} {l : List α} {i : Nat} {a : α}
    (h : l.get? i = some a) : i < l.length := by
  rcases List.get?_eq_some.1 h with ⟨hlt, _⟩
  exact hlt

theorem get?_set_self {α : Type} {l : List α} {i : Nat} (x : α)
    (h : i < l.length) : (l.set i x).get? i = some x :=
  List.get?_set_eq_of_lt x h

theorem get?_set_preserve {α : Type} {l : List α} {i j : Nat} {x a : α}
    (hj : l.get? j = some a) (hi : l.get? i ≠ some a) :
    (l.set i x).get? j = some a := by
  rcases eq_or_ne i j with rfl | hne
  · exact absurd hj hi
  · rw [List.get?_set_ne x l hne]
    exact hj

theorem stepL_callers_length {V : Type} (url : String) (t : Option Nat)
    (net : Nat → FetchM.NetOutcome V) (s : FetchM.GState V) (l : FetchM.Lab) :
    (FetchM.stepL url t net s l).callers.length = s.callers.length := by
  cases l <;> simp only [FetchM.stepL] <;> repeat' split
  all_goals simp [List.length_set]

theorem runL_callers_length {V : Type} (url : String) (t : Option Nat)
    (net : Nat → FetchM.NetOutcome V) (labs : List FetchM.Lab)
    (s : FetchM.GState V) :
    (FetchM.runL url t net s labs).callers.length = s.callers.length := by
  induction labs generalizing s with
  | nil => rfl
  | cons l ls ih =>
    have h1 : FetchM.runL url t net s (l :: ls) =
        FetchM.runL url t net (FetchM.stepL url t net s l) ls := rfl
    rw [h1, ih, stepL_callers_length]

theorem runL_append {V : Type} (url : String) (t : Option Nat)
    (net : Nat → FetchM.NetOutcome V) (s : FetchM.GState V)
    (l1 l2 : List FetchM.Lab) :
    FetchM.runL url t net s (l1 ++ l2) =
      FetchM.runL url t net (FetchM.runL url t net s l1) l2 :=
  List.foldl_append _ _ _ _

theorem inv1_startState (V : Type) (n : Nat) :
    FetchM.Inv1 (FetchM.startState V n) := by
  refine ⟨rfl, Or.inl ⟨rfl, rfl, ?_⟩⟩
  intro c hc
  exact Or.inl (List.eq_of_mem_replicate hc)

theorem inv1_step {V : Type} (url : String) (t : Option Nat)
    (net : Nat → FetchM.NetOutcome V) {s : FetchM.GState V} {l : FetchM.Lab}
    (h : FetchM.Inv1 s) (hl : l.isNet = false) :
    FetchM.Inv1 (FetchM.stepL url t net s l) := by
  obtain ⟨cv, infl, rq, cls, iss⟩ := s
  obtain ⟨hcache, hdis⟩ := h
  simp only at hcache hdis
  subst hcache
  cases l with
  | netReturn k => simp [FetchM.Lab.isNet] at hl
  | startCall i =>
    simp only [FetchM.stepL]
    split
    case _ heq =>
      rcases hdis with ⟨h1, h2, h3⟩ | ⟨h1, h2, h3, h4⟩
      · refine ⟨rfl, Or.inl ⟨h1, h2, ?_⟩⟩
        intro c hc
        rcases List.mem_or_eq_of_mem_set hc with hc2 | rfl
        · exact h3 c hc2
        · exact Or.inr rfl
      · obtain ⟨j, hj⟩ := h3
        refine ⟨rfl, Or.inr ⟨h1, h2, ⟨j, ?_⟩, ?_⟩⟩
        · exact get?_set_preserve hj (by rw [heq]; simp)
        · intro c hc
          rcases List.mem_or_eq_of_mem_set hc with hc2 | rfl
          · exact h4 c hc2
          · exact Or.inr (Or.inl rfl)
    case _ => exact ⟨rfl, hdis⟩
  | resumeCall i =>
    simp only [FetchM.stepL]
    split
    case _ v heq =>
      exfalso
      have hmem := List.get?_mem heq
      rcases hdis with ⟨_, _, h3⟩ | ⟨_, _, _, h4⟩
      · rcases h3 _ hmem with h | h <;> simp at h
      · rcases h4 _ hmem with h | h | h | h <;> simp at h
    case _ heq =>
      split
      case _ k hk =>
        rcases hdis with ⟨h1, h2, h3⟩ | ⟨h1, h2, h3, h4⟩
        · exact absurd h2 (by simp)
        · obtain rfl : hk = 0 := by simpa using h2
          subst h1
          obtain ⟨j, hj⟩ := h3
          refine ⟨rfl, Or.inr ⟨rfl, rfl, ⟨j, ?_⟩, ?_⟩⟩
          · exact get?_set_preserve hj (by rw [heq]; simp)
          · intro c hc
            rcases List.mem_or_eq_of_mem_set hc with hc2 | rfl
            · exact h4 c hc2
            · exact Or.inr (Or.inr (Or.inr rfl))
      case _ k =>
        rcases hdis with ⟨h1, h2, h3⟩ | ⟨h1, h2, h3, h4⟩
        · subst h1
          refine ⟨rfl, Or.inr ⟨by simp, by simp, ⟨i, ?_⟩, ?_⟩⟩
          · simpa using get?_set_self _ (lt_of_get?_eq_some heq)
          · intro c hc
            rcases List.mem_or_eq_of_mem_set hc with hc2 | rfl
            · rcases h3 c hc2 with h | h
              · exact Or.inl h
              · exact Or.inr (Or.inl h)
            · simp
        · exact absurd h2 (by simp)
    case _ => exact ⟨rfl, hdis⟩
  | jsonDone k =>
    simp only [FetchM.stepL]
    split
    case _ v heq =>
      exfalso
      rcases hdis with ⟨h1, _, _⟩ | ⟨h1, _, _, _⟩ <;> rw [h1] at heq
      · simp at heq
      · rw [get?_singleton] at heq
        by_cases hk : k = 0 <;> simp [hk] at heq
    case _ => exact ⟨rfl, hdis⟩
  | setDone k =>
    simp only [FetchM.stepL]
    split
    case _ v heq =>
      exfalso
      rcases hdis with ⟨h1, _, _⟩ | ⟨h1, _, _, _⟩ <;> rw [h1] at heq
      · simp at heq
      · rw [get?_singleton] at heq
        by_cases hk : k = 0 <;> simp [hk] at heq
    case _ => exact ⟨rfl, hdis⟩
  | settleCall i =>
    simp only [FetchM.stepL]
    split
    case _ k heq =>
      split
      case _ r hr =>
        exfalso
        rcases hdis with ⟨h1, _, _⟩ | ⟨h1, _, _, _⟩ <;> rw [h1] at hr
        · simp at hr
        · rw [get?_singleton] at hr
          by_cases hk : k = 0 <;> simp [hk] at hr
      case _ => exact ⟨rfl, hdis⟩
    case _ k heq =>
      split
      case _ r hr =>
        exfalso
        rcases hdis with ⟨h1, _, _⟩ | ⟨h1, _, _, _⟩ <;> rw [h1] at hr
        · simp at hr
        · rw [get?_singleton] at hr
          by_cases hk : k = 0 <;> simp [hk] at hr
      case _ => exact ⟨rfl, hdis⟩
    case _ => exact ⟨rfl, hdis⟩

theorem inv1_run {V : Type} (url : String) (t : Option Nat)
    (net : Nat → FetchM.NetOutcome V) (labs : List FetchM.Lab)
    (hno : ∀ l ∈ labs, l.isNet = false) :
    ∀ s : FetchM.GState V, FetchM.Inv1 s →
      FetchM.Inv1 (FetchM.runL url t net s labs) := by
  induction labs with
  | nil => intro s h; exact h
  | cons l ls ih =>
    intro s h
    have hstep := inv1_step url t net h (hno l (List.mem_cons_self l ls))
    exact ih (fun x hx => hno x (List.mem_cons_of_mem l hx)) _ hstep

theorem okBody_eq_some_iff {V : Type} (o : FetchM.NetOutcome V) (v : V) :
    FetchM.okBody o = some v ↔ ∃ st, o = .http true st v := by
  cases o with
  | timeout => simp [FetchM.okBody]
  | http ok st b => cases ok <;> simp [FetchM.okBody, eq_comm]

theorem inv2_of_inv1 {V : Type} {url : String} {net : Nat → FetchM.NetOutcome V}
    {s : FetchM.GState V} (h : FetchM.Inv1 s)
    (hres : FetchM.allResumed s = true) (hn : 0 < s.callers.length) :
    FetchM.Inv2 url net s := by
  obtain ⟨hcache, hdis⟩ := h
  have hall := List.all_eq_true.1 hres
  rcases hdis with ⟨h1, h2, h3⟩ | ⟨h1, h2, h3, h4⟩
  · exfalso
    obtain ⟨c0, hc0⟩ := List.exists_mem_of_length_pos hn
    rcases h3 c0 hc0 with rfl | rfl <;>
      simpa [FetchM.CallerPhase.resumed] using hall _ hc0
  · refine ⟨⟨.fetching, h1, hcache⟩, Or.inr ⟨h2, h3⟩, ?_⟩
    intro c hc
    rcases h4 c hc with rfl | rfl | rfl | rfl
    · simpa [FetchM.CallerPhase.resumed] using hall _ hc
    · simpa [FetchM.CallerPhase.resumed] using hall _ hc
    · exact Or.inl rfl
    · exact Or.inr (Or.inl rfl)

theorem inv2_step {V : Type} {url : String} {t : Option Nat}
    {net : Nat → FetchM.NetOutcome V} {s : FetchM.GState V} (l : FetchM.Lab)
    (h : FetchM.Inv2 url net s) :
    FetchM.Inv2 url net (FetchM.stepL url t net s l) := by
  obtain ⟨cv, infl, rq, cls, iss⟩ := s
  obtain ⟨⟨p, hp, hpo⟩, hinfl, hcall⟩ := h
  simp only at hp hpo hinfl hcall
  subst hp
  cases l with
  | startCall i =>
    simp only [FetchM.stepL]
    split
    case _ heq =>
      exfalso
      have hmem := List.get?_mem heq
      rcases hcall _ hmem with h | h | h <;> simp at h
    case _ => exact ⟨⟨p, rfl, hpo⟩, hinfl, hcall⟩
  | resumeCall i =>
    simp only [FetchM.stepL]
    split
    case _ v heq =>
      exfalso
      have hmem := List.get?_mem heq
      rcases hcall _ hmem with h | h | h <;> simp at h
    case _ heq =>
      exfalso
      have hmem := List.get?_mem heq
      rcases hcall _ hmem with h | h | h <;> simp at h
    case _ => exact ⟨⟨p, rfl, hpo⟩, hinfl, hcall⟩
  | netReturn k =>
    simp only [FetchM.stepL]
    split
    case _ heq =>
      rw [get?_singleton] at heq
      by_cases hk : k = 0
      · subst hk
        simp at heq
        subst heq
        have hcv : cv = none := hpo
        subst hcv
        split
        case _ hnet =>
          refine ⟨⟨.resolvedWith (Except.error FetchM.FetchErr.timeoutErr),
            by simp, ?_, ?_⟩, hinfl, hcall⟩
          · rw [hnet]; rfl
          · rw [hnet]; rfl
        case _ ok st b hnet =>
          split
          case _ hok =>
            subst hok
            refine ⟨⟨.parsing b, by simp, ?_, ?_⟩, hinfl, hcall⟩
            · rw [hnet]; rfl
            · rfl
          case _ hok =>
            have hok2 : ok = false := by
              cases ok
              · rfl
              · exact absurd rfl hok
            subst hok2
            refine ⟨⟨.resolvedWith
              (Except.error (FetchM.FetchErr.httpStatus (FetchM.urlHost url) st)),
              by simp, ?_, ?_⟩, hinfl, hcall⟩
            · rw [hnet]; simp [FetchM.fetchResultOf]
            · rw [hnet]; rfl
      · rw [if_neg hk] at heq
        simp at heq
    case _ => exact ⟨⟨p, rfl, hpo⟩, hinfl, hcall⟩
  | jsonDone k =>
    simp only [FetchM.stepL]
    split
    case _ v heq =>
      rw [get?_singleton] at heq
      by_cases hk : k = 0
      · subst hk
        simp at heq
        subst heq
        obtain ⟨hob, hcv⟩ := hpo
        refine ⟨⟨.caching v, by simp, ?_, ?_⟩, hinfl, hcall⟩
        · exact hob
        · rfl
      · rw [if_neg hk] at heq
        simp at heq
    case _ => exact ⟨⟨p, rfl, hpo⟩, hinfl, hcall⟩
  | setDone k =>
    simp only [FetchM.stepL]
    split
    case _ v heq =>
      rw [get?_singleton] at heq
      by_cases hk : k = 0
      · subst hk
        simp at heq
        subst heq
        obtain ⟨hob, hcv⟩ := hpo
        obtain ⟨st, hnet⟩ := (okBody_eq_some_iff _ _).1 hob
        refine ⟨⟨.resolvedWith (Except.ok v), by simp, ?_, ?_⟩, hinfl, hcall⟩
        · rw [hnet]; simp [FetchM.fetchResultOf]
        · rw [hcv, FetchM.cacheAfter, hob]
      · rw [if_neg hk] at heq
        simp at heq
    case _ => exact ⟨⟨p, rfl, hpo⟩, hinfl, hcall⟩
  | settleCall i =>
    simp only [FetchM.stepL]
    split
    case _ k heq =>
      split
      case _ r hr =>
        -- the owner settles: takes the shared result and clears the ledger
        have hmem := List.get?_mem heq
        have hk0 : k = 0 := by
          rcases hcall _ hmem with h | h | h <;> simp at h
          · exact h
        subst hk0
        rw [get?_singleton, if_pos rfl, Option.some.injEq] at hr
        subst hr
        obtain ⟨hres, hcv⟩ := hpo
        refine ⟨⟨_, rfl, hres, hcv⟩, Or.inl rfl, ?_⟩
        intro c hc
        rcases List.mem_or_eq_of_mem_set hc with hc2 | rfl
        · exact hcall c hc2
        · exact Or.inr (Or.inr (by rw [hres]))
      case _ => exact ⟨⟨p, rfl, hpo⟩, hinfl, hcall⟩
    case _ k heq =>
      split
      case _ r hr =>
        -- a joiner settles with the shared result; the ledger is untouched
        have hmem := List.get?_mem heq
        have hk0 : k = 0 := by
          rcases hcall _ hmem with h | h | h <;> simp at h
          · exact h
        subst hk0
        rw [get?_singleton, if_pos rfl, Option.some.injEq] at hr
        subst hr
        obtain ⟨hres, hcv⟩ := hpo
        refine ⟨⟨_, rfl, hres, hcv⟩, ?_, ?_⟩
        · rcases hinfl with h | ⟨h1, j, hj⟩
          · exact Or.inl h
          · refine Or.inr ⟨h1, j, ?_⟩
            exact get?_set_preserve hj (by rw [heq]; simp)
        · intro c hc
          rcases List.mem_or_eq_of_mem_set hc with hc2 | rfl
          · exact hcall c hc2
          · exact Or.inr (Or.inr (by rw [hres]))
      case _ => exact ⟨⟨p, rfl, hpo⟩, hinfl, hcall⟩
    case _ => exact ⟨⟨p, rfl, hpo⟩, hinfl, hcall⟩

theorem inv2_run {V : Type} (url : String) (t : Option Nat)
    (net : Nat → FetchM.NetOutcome V) (labs : List FetchM.Lab) :
    ∀ s : FetchM.GState V, FetchM.Inv2 url net s →
      FetchM.Inv2 url net (FetchM.runL url t net s labs) := by
  induction labs with
  | nil => intro s h; exact h
  | cons l ls ih =>
    intro s h
    exact ih _ (inv2_step (t := t) l h)

/-! ### C4 — stampede deduplication of cachedFetchJson -/

/-- C4: N concurrent cachedFetchJson calls for the same URL issued before
the first one settles — that is, any schedule that starts the n callers
and lets each pass its in-flight-ledger check (allResumed) before the
first network event, continuing arbitrarily afterwards — lead to exactly
one physical network call (reqs counts the fetchWithTimeout issues); every
caller that finishes receives the identical result fetchResultOf url
(net 0), be it the decoded value or the error; and once all callers have
finished — the owner's finally clause having run — the in-flight ledger
entry for the URL is gone, whether the call succeeded or failed. -/
theorem C4_stampede_dedup (V : Type) (n : Nat) (url : String)
    (t : Option Nat) (net : Nat → FetchM.NetOutcome V)
    (labs1 labs2 : List FetchM.Lab) (hn : 0 < n)
    (hpre : ∀ l ∈ labs1, l.isNet = false)
    (hres : FetchM.allResumed
      (FetchM.runL url t net (FetchM.startState V n) labs1) = true) :
    (FetchM.runL url t net (FetchM.startState V n)
        (labs1 ++ labs2)).reqs.length = 1 ∧
    (∀ c ∈ (FetchM.runL url t net (FetchM.startState V n)
        (labs1 ++ labs2)).callers,
      ∀ r, c.result? = some r → r = FetchM.fetchResultOf url (net 0)) ∧
    ((∀ c ∈ (FetchM.runL url t net (FetchM.startState V n)
        (labs1 ++ labs2)).callers, c.result?.isSome = true) →
      (FetchM.runL url t net (FetchM.startState V n)
        (labs1 ++ labs2)).inflight = none) := by
  have hinv1 : FetchM.Inv1 (FetchM.runL url t net (FetchM.startState V n)
      labs1) :=
    inv1_run url t net labs1 hpre _ (inv1_startState V n)
  have hlen : (FetchM.runL url t net (FetchM.startState V n)
      labs1).callers.length = n := by
    rw [runL_callers_length]
    simp [FetchM.startState]
  have hinv2 : FetchM.Inv2 url net (FetchM.runL url t net
      (FetchM.startState V n) labs1) :=
    inv2_of_inv1 hinv1 hres (by rw [hlen]; exact hn)
  have hinv2b : FetchM.Inv2 url net (FetchM.runL url t net
      (FetchM.startState V n) (labs1 ++ labs2)) := by
    rw [runL_append]
    exact inv2_run url t net labs2 _ hinv2
  obtain ⟨⟨p, hp, _⟩, hinfl, hcall⟩ := hinv2b
  refine ⟨by rw [hp]; rfl, ?_, ?_⟩
  · intro c hc r hr
    rcases hcall c hc with rfl | rfl | rfl
    · simp [FetchM.CallerPhase.result?] at hr
    · simp [FetchM.CallerPhase.result?] at hr
    · simp only [FetchM.CallerPhase.result?, Option.some.injEq] at hr
      exact hr.symm
  · intro hall
    rcases hinfl with h | ⟨h1, j, hj⟩
    · exact h
    · exfalso
      have hmem := List.get?_mem hj
      have := hall _ hmem
      simp [FetchM.CallerPhase.result?] at this

theorem C4_stampede_dedup_witness :
    ((0 : Nat) < 2 ∧
      (∀ l ∈ [FetchM.Lab.startCall 0, FetchM.Lab.startCall 1,
          FetchM.Lab.resumeCall 0, FetchM.Lab.resumeCall 1],
        l.isNet = false) ∧
      FetchM.allResumed (FetchM.runL "https://api.example.com/data" none
        (fun _ => FetchM.NetOutcome.http true 200 (7 : Nat))
        (FetchM.startState Nat 2)
        [FetchM.Lab.startCall 0, FetchM.Lab.startCall 1,
          FetchM.Lab.resumeCall 0, FetchM.Lab.resumeCall 1]) = true) ∧
    ((FetchM.runL "https://api.example.com/data" none
        (fun _ => FetchM.NetOutcome.http true 200 (7 : Nat))
        (FetchM.startState Nat 2)
        ([FetchM.Lab.startCall 0, FetchM.Lab.startCall 1,
          FetchM.Lab.resumeCall 0, FetchM.Lab.resumeCall 1] ++
         [FetchM.Lab.netReturn 0, FetchM.Lab.jsonDone 0, FetchM.Lab.setDone 0,
          FetchM.Lab.settleCall 0, FetchM.Lab.settleCall 1])).reqs.length = 1 ∧
      (∀ c ∈ (FetchM.runL "https://api.example.com/data" none
          (fun _ => FetchM.NetOutcome.http true 200 (7 : Nat))
          (FetchM.startState Nat 2)
          ([FetchM.Lab.startCall 0, FetchM.Lab.startCall 1,
            FetchM.Lab.resumeCall 0, FetchM.Lab.resumeCall 1] ++
           [FetchM.Lab.netReturn 0, FetchM.Lab.jsonDone 0,
            FetchM.Lab.setDone 0, FetchM.Lab.settleCall 0,
            FetchM.Lab.settleCall 1])).callers,
        ∀ r, c.result? = some r →
          r = FetchM.fetchResultOf "https://api.example.com/data"
            ((fun _ => FetchM.NetOutcome.http true 200 (7 : Nat)) 0)) ∧
      ((∀ c ∈ (FetchM.runL "https://api.example.com/data" none
          (fun _ => FetchM.NetOutcome.http true 200 (7 : Nat))
          (FetchM.startState Nat 2)
          ([FetchM.Lab.startCall 0, FetchM.Lab.startCall 1,
            FetchM.Lab.resumeCall 0, FetchM.Lab.resumeCall 1] ++
           [FetchM.Lab.netReturn 0, FetchM.Lab.jsonDone 0,
            FetchM.Lab.setDone 0, FetchM.Lab.settleCall 0,
            FetchM.Lab.settleCall 1])).callers,
          c.result?.isSome = true) →
        (FetchM.runL "https://api.example.com/data" none
          (fun _ => FetchM.NetOutcome.http true 200 (7 : Nat))
          (FetchM.startState Nat 2)
          ([FetchM.Lab.startCall 0, FetchM.Lab.startCall 1,
            FetchM.Lab.resumeCall 0, FetchM.Lab.resumeCall 1] ++
           [FetchM.Lab.netReturn 0, FetchM.Lab.jsonDone 0,
            FetchM.Lab.setDone 0, FetchM.Lab.settleCall 0,
            FetchM.Lab.settleCall 1])).inflight = none)) :=
  ⟨⟨by decide, by decide, by decide⟩,
    C4_stampede_dedup Nat 2 "https://api.example.com/data" none
      (fun _ => FetchM.NetOutcome.http true 200 (7 : Nat))
      [FetchM.Lab.startCall 0, FetchM.Lab.startCall 1,
        FetchM.Lab.resumeCall 0, FetchM.Lab.resumeCall 1]
      [FetchM.Lab.netReturn 0, FetchM.Lab.jsonDone 0, FetchM.Lab.setDone 0,
        FetchM.Lab.settleCall 0, FetchM.Lab.settleCall 1]
      (by decide) (by decide) (by decide)⟩

/-! ### C9 — non-ok responses fail with host+status and are never cached -/

theorem gok_startState (V : Type) (url : String)
    (net : Nat → FetchM.NetOutcome V) (n : Nat) :
    FetchM.GOK url net (FetchM.startState V n) := by
  constructor
  · intro k p hk
    simp [FetchM.startState] at hk
  · intro v hv
    simp [FetchM.startState] at hv

theorem gok_step {V : Type} {url : String} {t : Option Nat}
    {net : Nat → FetchM.NetOutcome V} {s : FetchM.GState V} (l : FetchM.Lab)
    (h : FetchM.GOK url net s) :
    FetchM.GOK url net (FetchM.stepL url t net s l) := by
  obtain ⟨cv, infl, rq, cls, iss⟩ := s
  obtain ⟨hreq, hcv⟩ := h
  simp only at hreq hcv
  cases l with
  | startCall i =>
    simp only [FetchM.stepL]
    split
    case _ => exact ⟨hreq, hcv⟩
    case _ => exact ⟨hreq, hcv⟩
  | resumeCall i =>
    simp only [FetchM.stepL]
    split
    case _ => exact ⟨hreq, hcv⟩
    case _ =>
      split
      case _ => exact ⟨hreq, hcv⟩
      case _ =>
        constructor
        · intro k p hk
          by_cases hlt : k < rq.length
          · rw [List.get?_append hlt] at hk
            exact hreq k p hk
          · have hge : rq.length ≤ k := Nat.le_of_not_lt hlt
            rw [List.get?_append_right hge] at hk
            rcases Nat.lt_or_ge (k - rq.length) 1 with h1 | h1
            · interval_cases h2 : k - rq.length
              · simp at hk
                rw [← hk]
                trivial
            · rw [List.get?_eq_none.2 (by simpa using h1)] at hk
              exact absurd hk (by simp)
        · intro v hv
          obtain ⟨k, hk1, hk2⟩ := hcv v hv
          exact ⟨k, by simp; omega, hk2⟩
    case _ => exact ⟨hreq, hcv⟩
  | netReturn k =>
    simp only [FetchM.stepL]
    split
    case _ heq =>
      have hklt : k < rq.length := lt_of_get?_eq_some heq
      split
      case _ hnet =>
        constructor
        · intro k2 p hk2
          by_cases hkk : k2 = k
          · subst hkk
            rw [get?_set_self _ hklt] at hk2
            simp only [Option.some.injEq] at hk2
            subst hk2
            show _ = FetchM.fetchResultOf url (net k2)
            rw [hnet]; rfl
          · rw [List.get?_set_ne _ _ (fun hx => hkk hx.symm)] at hk2
            exact hreq k2 p hk2
        · intro v hv
          obtain ⟨k2, hk1, hk2⟩ := hcv v hv
          exact ⟨k2, by simpa using hk1, hk2⟩
      case _ ok st b hnet =>
        split
        case _ hok =>
          subst hok
          constructor
          · intro k2 p hk2
            by_cases hkk : k2 = k
            · subst hkk
              rw [get?_set_self _ hklt] at hk2
              simp only [Option.some.injEq] at hk2
              subst hk2
              show FetchM.okBody (net k2) = some b
              rw [hnet]; rfl
            · rw [List.get?_set_ne _ _ (fun hx => hkk hx.symm)] at hk2
              exact hreq k2 p hk2
          · intro v hv
            obtain ⟨k2, hk1, hk2⟩ := hcv v hv
            exact ⟨k2, by simpa using hk1, hk2⟩
        case _ hok =>
          constructor
          · intro k2 p hk2
            by_cases hkk : k2 = k
            · subst hkk
              rw [get?_set_self _ hklt] at hk2
              simp only [Option.some.injEq] at hk2
              subst hk2
              show _ = FetchM.fetchResultOf url (net k2)
              have hok2 : ok = false := by
                cases ok
                · rfl
                · exact absurd rfl hok
              rw [hnet, hok2]
              simp [FetchM.fetchResultOf]
            · rw [List.get?_set_ne _ _ (fun hx => hkk hx.symm)] at hk2
              exact hreq k2 p hk2
          · intro v hv
            obtain ⟨k2, hk1, hk2⟩ := hcv v hv
            exact ⟨k2, by simpa using hk1, hk2⟩
    case _ => exact ⟨hreq, hcv⟩
  | jsonDone k =>
    simp only [FetchM.stepL]
    split
    case _ v heq =>
      have hklt : k < rq.length := lt_of_get?_eq_some heq
      have hob : FetchM.okBody (net k) = some v := hreq k _ heq
      constructor
      · intro k2 p hk2
        by_cases hkk : k2 = k
        · subst hkk
          rw [get?_set_self _ hklt] at hk2
          simp only [Option.some.injEq] at hk2
          subst hk2
          exact hob
        · rw [List.get?_set_ne _ _ (fun hx => hkk hx.symm)] at hk2
          exact hreq k2 p hk2
      · intro v2 hv2
        simp only [Option.some.injEq] at hv2
        subst hv2
        exact ⟨k, by simpa using hklt, hob⟩
    case _ => exact ⟨hreq, hcv⟩
  | setDone k =>
    simp only [FetchM.stepL]
    split
    case _ v heq =>
      have hklt : k < rq.length := lt_of_get?_eq_some heq
      have hob : FetchM.okBody (net k) = some v := hreq k _ heq
      obtain ⟨st, hnet⟩ := (okBody_eq_some_iff _ _).1 hob
      constructor
      · intro k2 p hk2
        by_cases hkk : k2 = k
        · subst hkk
          rw [get?_set_self _ hklt] at hk2
          simp only [Option.some.injEq] at hk2
          subst hk2
          show _ = FetchM.fetchResultOf url (net k2)
          rw [hnet]
          simp [FetchM.fetchResultOf]
        · rw [List.get?_set_ne _ _ (fun hx => hkk hx.symm)] at hk2
          exact hreq k2 p hk2
      · intro v2 hv2
        obtain ⟨k2, hk1, hk2⟩ := hcv v2 hv2
        exact ⟨k2, by simpa using hk1, hk2⟩
    case _ => exact ⟨hreq, hcv⟩
  | settleCall i =>
    simp only [FetchM.stepL]
    split
    case _ k heq =>
      split
      case _ => exact ⟨hreq, hcv⟩
      case _ => exact ⟨hreq, hcv⟩
    case _ k heq =>
      split
      case _ => exact ⟨hreq, hcv⟩
      case _ => exact ⟨hreq, hcv⟩
    case _ => exact ⟨hreq, hcv⟩

theorem gok_run {V : Type} (url : String) (t : Option Nat)
    (net : Nat → FetchM.NetOutcome V) (labs : List FetchM.Lab) :
    ∀ s : FetchM.GState V, FetchM.GOK url net s →
      FetchM.GOK url net (FetchM.runL url t net s labs) := by
  induction labs with
  | nil => intro s h; exact h
  | cons l ls ih =>
    intro s h
    exact ih _ (gok_step (t := t) l h)

/-- C9: in any schedule of cachedFetchJson activity from a fresh start,
(1) a physical call whose HTTP response has a non-success status resolves
with the error naming the upstream host and the status code (the thrown
`new Error` rendered by renderFetchErr as "host returned status"), and
(2) the cache for the URL only ever holds the decoded body of a
successful (response.ok) response — a failed response is never stored. -/
theorem C9_non_ok_fails_named_never_cached (V : Type) (n : Nat)
    (url : String) (t : Option Nat) (net : Nat → FetchM.NetOutcome V)
    (labs : List FetchM.Lab) :
    (∀ (k st : Nat) (b : V) (r : Except FetchM.FetchErr V),
      net k = .http false st b →
      (FetchM.runL url t net (FetchM.startState V n) labs).reqs.get? k =
        some (.resolvedWith r) →
      r = .error (.httpStatus (FetchM.urlHost url) st) ∧
        FetchM.renderFetchErr (.httpStatus (FetchM.urlHost url) st) =
          FetchM.urlHost url ++ " returned " ++ toString st) ∧
    (∀ v : V,
      (FetchM.runL url t net (FetchM.startState V n) labs).cacheVal = some v →
      ∃ k st, net k = .http true st v) := by
  obtain ⟨hreq, hcv⟩ :=
    gok_run url t net labs (FetchM.startState V n) (gok_startState V url net n)
  constructor
  · intro k st b r hnet hr
    have := hreq k _ hr
    constructor
    · rw [this, hnet]
      simp [FetchM.fetchResultOf]
    · rfl
  · intro v hv
    obtain ⟨k, _, hob⟩ := hcv v hv
    obtain ⟨st, hnet⟩ := (okBody_eq_some_iff _ _).1 hob
    exact ⟨k, st, hnet⟩

theorem C9_non_ok_fails_named_never_cached_witness :
    ((fun _ : Nat => FetchM.NetOutcome.http false 503 (9 : Nat)) 0 =
        FetchM.NetOutcome.http false 503 9 ∧
      (FetchM.runL "https://api.open-meteo.com/v1/forecast?x=1" none
        (fun _ => FetchM.NetOutcome.http false 503 (9 : Nat))
        (FetchM.startState Nat 1)
        [FetchM.Lab.startCall 0, FetchM.Lab.resumeCall 0,
          FetchM.Lab.netReturn 0, FetchM.Lab.settleCall 0]).reqs.get? 0 =
        some (.resolvedWith (.error (.httpStatus "api.open-meteo.com" 503))) ∧
      (FetchM.runL "https://api.open-meteo.com/v1/forecast?x=1" none
        (fun _ => FetchM.NetOutcome.http false 503 (9 : Nat))
        (FetchM.startState Nat 1)
        [FetchM.Lab.startCall 0, FetchM.Lab.resumeCall 0,
          FetchM.Lab.netReturn 0, FetchM.Lab.settleCall 0]).cacheVal =
        none) ∧
    ((Except.error (.httpStatus "api.open-meteo.com" 503) :
        Except FetchM.FetchErr Nat) =
      .error (.httpStatus
        (FetchM.urlHost "https://api.open-meteo.com/v1/forecast?x=1") 503) ∧
      FetchM.renderFetchErr (.httpStatus
        (FetchM.urlHost "https://api.open-meteo.com/v1/forecast?x=1") 503) =
        FetchM.urlHost "https://api.open-meteo.com/v1/forecast?x=1" ++
          " returned " ++ toString 503) :=
  ⟨⟨rfl, by decide, by decide⟩,
    (C9_non_ok_fails_named_never_cached Nat 1
        "https://api.open-meteo.com/v1/forecast?x=1" none
        (fun _ => FetchM.NetOutcome.http false 503 (9 : Nat))
        [FetchM.Lab.startCall 0, FetchM.Lab.resumeCall 0,
          FetchM.Lab.netReturn 0, FetchM.Lab.settleCall 0]).1 0 503 9
      (.error (.httpStatus "api.open-meteo.com" 503)) rfl (by decide)⟩

/-! ### C7 — every upstream fetch carries an explicit timeout -/

end WeatherSpec
